import Mathlib

set_option maxHeartbeats 1000000

namespace AutoBotOx

/-- Kinds of message the wrapper emits into its queue
(enum TipoMessaggio in src/core/interpreter_wrapper.py). -/
inductive TipoMsg
  | TESTO
  | CODICE
  | OUTPUT_CONSOLE
  | ERRORE
  | STATO
  | APPROVAZIONE
  deriving DecidableEq, Repr

/-- One event placed into the wrapper queue (dataclass
MessaggioInterpreter in src/core/interpreter_wrapper.py).  The source
field named linguaggio is rendered here as lingua. -/
structure MessaggioInterpreter where
  tipo : TipoMsg
  contenuto : String
  ruolo : String := "assistant"
  lingua : String := ""
  completo : Bool := false
  token_input : Nat := 0
  token_output : Nat := 0
  deriving DecidableEq, Repr

/-- The payload of an executing chunk: info_exec.get("code", "") and
info_exec.get("language", "python") in the source. -/
structure InfoEsecuzione where
  code : String := ""
  language : String := "python"
  deriving DecidableEq, Repr

/-- One raw streamed chunk of the open-interpreter v0.1.x protocol, as the
dict fields read by WrapperInterpreter._elabora_messaggio.  A dict may
carry several fields at once; absent keys are modelled by false / none. -/
structure Chunk where
  start_of_message : Bool := false
  end_of_message : Bool := false
  start_of_code : Bool := false
  end_of_code : Bool := false
  message : Option String := none
  language : Option String := none
  code : Option String := none
  output : Option String := none
  executing : Option InfoEsecuzione := none
  deriving DecidableEq, Repr

/-- Outcome of one approval wait: risposta is the value of
_approvazione_risposta when the polling loop exits (none means the loop
exited with the slot still unset, which in the source only happens when
stop was requested), and stopDopo is the value of _stop_richiesto read by
the check that follows the wait. -/
structure GateOutcome where
  risposta : Option Bool
  stopDopo : Bool
  deriving DecidableEq, Repr

/-- The local variables of the streaming loop in _elabora_messaggio. -/
structure StatoLoop where
  lingCorrente : String
  codiceAcc : String
  testoAcc : String
  inBloccoCodice : Bool
  inBloccoMsg : Bool
  deriving DecidableEq, Repr

/-- Initial loop variables: linguaggio_corrente = "python", empty
accumulators, both block flags off. -/
def statoLoopIniziale : StatoLoop := ⟨"python", "", "", false, false⟩

/-- An execution intent the worker allowed past (the loop advanced beyond
the executing chunk, so the runtime proceeds to run the code).  gate
records the approval outcome consumed for it, none when no gate was
opened (auto-run on, or empty code). -/
structure Eseguito where
  codice : String
  lingua : String
  gate : Option GateOutcome
  deriving DecidableEq, Repr

/-- Result of processing one chunk: either continue the loop or break out
of the streaming iterator.  dj counts approval gates consumed (0 or 1). -/
inductive PassoRes
  | cont (eventi : List MessaggioInterpreter) (eseguiti : List Eseguito)
      (st : StatoLoop) (dj : Nat)
  | halt (eventi : List MessaggioInterpreter) (st : StatoLoop) (dj : Nat)
  deriving DecidableEq, Repr

def msgTesto (t : String) : MessaggioInterpreter :=
  ⟨.TESTO, t, "assistant", "", false, 0, 0⟩

def msgCodice (c l : String) : MessaggioInterpreter :=
  ⟨.CODICE, c, "assistant", l, false, 0, 0⟩

def msgOutput (o : String) : MessaggioInterpreter :=
  ⟨.OUTPUT_CONSOLE, o, "computer", "", false, 0, 0⟩

def msgApprovazione (c l : String) : MessaggioInterpreter :=
  ⟨.APPROVAZIONE, c, "assistant", l, false, 0, 0⟩

/-- Status event emitted when the top-of-loop stop check fires. -/
def msgInterrotta : MessaggioInterpreter :=
  ⟨.STATO, "⚠️ Elaborazione interrotta dall\x27utente", "assistant", "", false, 0, 0⟩

/-- Status event emitted when an approval gate is refused. -/
def msgRifiutata : MessaggioInterpreter :=
  ⟨.STATO, "⚠️ Esecuzione codice rifiutata dall\x27utente", "assistant", "", false, 0, 0⟩

/-- Terminal status event emitted after the loop: the only event carrying
completo = true. -/
def msgCompletata : MessaggioInterpreter :=
  ⟨.STATO, "Elaborazione completata", "assistant", "", true, 0, 0⟩

/-- Error event built in the except-branch of _elabora_messaggio. -/
def msgErroreTurno (m : String) : MessaggioInterpreter :=
  ⟨.ERRORE, "Errore: " ++ m ++ "\n\nProva a:\n1. Verificare che il server LLM sia attivo\n2. Controllare la connessione internet\n3. Verificare la API key", "assistant", "", false, 0, 0⟩

/-- The whitespace set of Python str.isspace(), which is what str.strip()
removes: 0x09-0x0d, 0x1c-0x1f, space, 0x85 (NEL), 0xa0 (NBSP), 0x1680,
0x2000-0x200a, 0x2028, 0x2029, 0x202f, 0x205f, 0x3000. -/
def biancoPython (c : Char) : Bool :=
  decide ((0x09 ≤ c.toNat ∧ c.toNat ≤ 0x0d) ∨ (0x1c ≤ c.toNat ∧ c.toNat ≤ 0x1f) ∨
    c.toNat = 0x20 ∨ c.toNat = 0x85 ∨ c.toNat = 0xa0 ∨ c.toNat = 0x1680 ∨
    (0x2000 ≤ c.toNat ∧ c.toNat ≤ 0x200a) ∨ c.toNat = 0x2028 ∨ c.toNat = 0x2029 ∨
    c.toNat = 0x202f ∨ c.toNat = 0x205f ∨ c.toNat = 0x3000)

/-- Python str.strip() as used on the accumulated code: drop Python
whitespace characters from both ends. -/
def stripBianco (s : String) : String :=
  ⟨((s.data.dropWhile biancoPython).reverse.dropWhile biancoPython).reverse⟩

/-- Handling of the message field of a content chunk: a non-empty text is
appended to the accumulator and one TESTO event is emitted. -/
def passoTesto (st : StatoLoop) (c : Chunk) : List MessaggioInterpreter × StatoLoop :=
  match c.message with
  | some t => if t ≠ "" then ([msgTesto t], {st with testoAcc := st.testoAcc ++ t}) else ([], st)
  | none => ([], st)

/-- Handling of the language and code fields of a content chunk: the
language field (last one wins) resets the current language, a non-empty
code field is appended to the code accumulator, nothing is emitted. -/
def applicaFrammento (st : StatoLoop) (c : Chunk) : StatoLoop :=
  match c.code with
  | some cd =>
    if cd ≠ "" then
      {passoLingua st c with codiceAcc := (passoLingua st c).codiceAcc ++ cd}
    else passoLingua st c
  | none => passoLingua st c
where
  passoLingua (st : StatoLoop) (c : Chunk) : StatoLoop :=
    match c.language with
    | some l => {st with lingCorrente := l}
    | none => st

/-- Handling of the output field of a content chunk: a non-empty output
yields one OUTPUT_CONSOLE event. -/
def passoOutput (c : Chunk) : List MessaggioInterpreter :=
  match c.output with
  | some o => if o ≠ "" then [msgOutput o] else []
  | none => []

/-- Processing of one chunk, translated from the body of the for-loop of
_elabora_messaggio.  The four boundary flags are tested first, each with
a continue; a chunk with no boundary flag is then scanned for message,
language, code, output and executing fields in that order.  The gate
value g is the outcome of the approval wait, consumed only when auto-run
is off and the executing code is non-empty. -/
def passo (autoRun : Bool) (g : GateOutcome) (st : StatoLoop) (c : Chunk) : PassoRes :=
  if c.start_of_message then .cont [] [] {st with inBloccoMsg := true, testoAcc := ""} 0
  else if c.end_of_message then .cont [] [] {st with inBloccoMsg := false} 0
  else if c.start_of_code then .cont [] [] {st with inBloccoCodice := true, codiceAcc := ""} 0
  else if c.end_of_code then
    .cont (if stripBianco st.codiceAcc ≠ "" then [msgCodice st.codiceAcc st.lingCorrente] else [])
      [] {st with inBloccoCodice := false, codiceAcc := ""} 0
  else
    match c.executing with
    | none =>
      .cont ((passoTesto st c).1 ++ passoOutput c) []
        (applicaFrammento (passoTesto st c).2 c) 0
    | some info =>
      if info.code = "" then
        .cont ((passoTesto st c).1 ++ passoOutput c) [⟨info.code, info.language, none⟩]
          (applicaFrammento (passoTesto st c).2 c) 0
      else if autoRun then
        .cont ((passoTesto st c).1 ++ passoOutput c ++ [msgCodice info.code info.language])
          [⟨info.code, info.language, none⟩] (applicaFrammento (passoTesto st c).2 c) 0
      else if g.risposta = some true ∧ g.stopDopo = false then
        .cont ((passoTesto st c).1 ++ passoOutput c ++
            [msgCodice info.code info.language, msgApprovazione info.code info.language])
          [⟨info.code, info.language, some g⟩] (applicaFrammento (passoTesto st c).2 c) 1
      else
        .halt ((passoTesto st c).1 ++ passoOutput c ++
            [msgCodice info.code info.language, msgApprovazione info.code info.language,
              msgRifiutata])
          (applicaFrammento (passoTesto st c).2 c) 1

/-- Result of running the streaming loop over a list of chunks. -/
structure RunResult where
  eventi : List MessaggioInterpreter
  eseguiti : List Eseguito
  stato : StatoLoop
  iFin : Nat
  jFin : Nat
  finito : Bool
  deriving DecidableEq, Repr

/-- Glueing of two run results, used when an iteration continues: the
events and passed intents of the first part come first, the rest is taken
from the remainder of the run. -/
def mergeRun (r1 r2 : RunResult) : RunResult :=
  ⟨r1.eventi ++ r2.eventi, r1.eseguiti ++ r2.eseguiti, r2.stato, r2.iFin, r2.jFin, r2.finito⟩

/-- The streaming loop of _elabora_messaggio.  s i is the value of
_stop_richiesto read at the top of iteration i; g j is the outcome of the
j-th approval wait.  finito is true when every chunk was consumed without
breaking out of the iterator. -/
def loopRun (autoRun : Bool) (s : Nat → Bool) (g : Nat → GateOutcome) :
    StatoLoop → Nat → Nat → List Chunk → RunResult
  | st, i, j, [] => ⟨[], [], st, i, j, true⟩
  | st, i, j, c :: rest =>
    if s i then ⟨[msgInterrotta], [], st, i, j, false⟩
    else
      match passo autoRun (g j) st c with
      | .halt evs st2 dj => ⟨evs, [], st2, i + 1, j + dj, false⟩
      | .cont evs ex st2 dj =>
        mergeRun ⟨evs, ex, st2, i + 1, j + dj, true⟩
          (loopRun autoRun s g st2 (i + 1) (j + dj) rest)

/-- The whole worker turn (_elabora_messaggio): run the streaming loop,
then append the trailing event.  err = some m models the iterator raising
an exception with message m after yielding the listed chunks, which can
only be observed when the loop did not break early; in that case only the
error event is appended.  The returned Bool is _in_esecuzione after the
finally block, always false. -/
def processaMsg (autoRun : Bool) (s : Nat → Bool) (g : Nat → GateOutcome)
    (chunks : List Chunk) (err : Option String) : List MessaggioInterpreter × Bool :=
  let r := loopRun autoRun s g statoLoopIniziale 0 0 chunks
  if r.finito then
    match err with
    | some m => (r.eventi ++ [msgErroreTurno m], false)
    | none => (r.eventi ++ [msgCompletata], false)
  else (r.eventi ++ [msgCompletata], false)

def chunkStartCodice : Chunk := { start_of_code := true }

def chunkFineCodice : Chunk := { end_of_code := true }

def chunkCodice (cd : String) : Chunk := { code := some cd }

def chunkLingua (l : String) : Chunk := { language := some l }

def chunkOutput (o : String) : Chunk := { output := some o }

def chunkEsecuzione (info : InfoEsecuzione) : Chunk := { executing := some info }

/-- A chunk that is part of the interior of a code block: no boundary
flag, no message, no output, no executing field (language and code fields
free). -/
def isFrammento (c : Chunk) : Bool :=
  !c.start_of_message && !c.end_of_message && !c.start_of_code && !c.end_of_code
    && c.message.isNone && c.output.isNone && c.executing.isNone

/-- Concatenation, in stream order, of the code fields of a fragment list. -/
def concatCodici : List Chunk → String
  | [] => ""
  | c :: cs => (c.code.getD "") ++ concatCodici cs

/-- The language left current after a fragment list (last language field
wins, dflt if none occurs). -/
def ultimaLingua : List Chunk → String → String
  | [], dflt => dflt
  | c :: cs, dflt => ultimaLingua cs (c.language.getD dflt)

/-- A stop-flag schedule that never fires. -/
def nessunoStop : Nat → Bool := fun _ => false

/-- Gate schedule: every wait ends with the slot unset and stop set. -/
def gateStopSubito : Nat → GateOutcome := fun _ => ⟨none, true⟩

/-- Gate schedule: every wait records approval with no stop. -/
def gateApprovaSempre : Nat → GateOutcome := fun _ => ⟨some true, false⟩

/-- Gate schedule: every wait records refusal. -/
def gateRifiutaSempre : Nat → GateOutcome := fun _ => ⟨some false, false⟩

/-- One entry of the session history _cronologia (role, text). -/
structure VoceCronologia where
  ruolo : String
  testo : String
  deriving DecidableEq, Repr

/-- The fields of WrapperInterpreter visible to the public operations.
interpInit models whether _interpreter is non-None. -/
structure WrapperState where
  interpInit : Bool
  coda : List MessaggioInterpreter
  inEsecuzione : Bool
  stopRichiesto : Bool
  inAttesaApprovazione : Bool
  approvazioneRisposta : Option Bool
  cronologia : List VoceCronologia
  autoRun : Bool
  deriving DecidableEq, Repr

/-- State built by WrapperInterpreter.__init__. -/
def statoIniziale : WrapperState :=
  ⟨false, [], false, false, false, none, [], false⟩

/-- Error event enqueued by invia_messaggio when _interpreter is None. -/
def msgErroreNonInit : MessaggioInterpreter :=
  ⟨.ERRORE, "Interprete non inizializzato! Configura prima un provider.", "assistant", "", false, 0, 0⟩

/-- Error event enqueued by invia_messaggio when a turn is running. -/
def msgErroreOccupato : MessaggioInterpreter :=
  ⟨.ERRORE, "L\x27interprete sta già elaborando un messaggio. Attendi o premi STOP.", "assistant", "", false, 0, 0⟩

/-- Status event enqueued by invia_messaggio before spawning the worker. -/
def msgStatoAvvio : MessaggioInterpreter :=
  ⟨.STATO, "Elaborazione in corso...", "assistant", "", false, 0, 0⟩

/-- Status event enqueued by emergency_stop. -/
def msgStopEmergenza : MessaggioInterpreter :=
  ⟨.STATO, "🚨 STOP DI EMERGENZA - Tutti i processi interrotti", "assistant", "", false, 0, 0⟩

/-- inizializza_interpreter: on success the runtime handle is bound; on
failure (import error or construction error) an error event carrying
msgErr is enqueued and the handle is left as it was. -/
def inizializzaInterpreter (ok : Bool) (msgErr : String) (s : WrapperState) :
    WrapperState × Bool :=
  if ok then ({s with interpInit := true}, true)
  else ({s with coda := s.coda ++ [⟨.ERRORE, msgErr, "assistant", "", false, 0, 0⟩]}, false)

/-- invia_messaggio: returns (state, successo, spawned) where spawned is
true exactly when a worker thread was started.  The checks run in source
order: runtime configured, then not already running; only then is the
user text appended to the history, the flags reset, the start status
enqueued and the worker spawned. -/
def inviaMsg (s : WrapperState) (testo : String) : WrapperState × Bool × Bool :=
  if s.interpInit = false then
    ({s with coda := s.coda ++ [msgErroreNonInit]}, false, false)
  else if s.inEsecuzione then
    ({s with coda := s.coda ++ [msgErroreOccupato]}, false, false)
  else
    ({s with cronologia := s.cronologia ++ [⟨"user", testo⟩],
             stopRichiesto := false,
             inEsecuzione := true,
             coda := s.coda ++ [msgStatoAvvio]}, true, true)

/-- emergency_stop: sets the stop flag, clears the running and
awaiting-approval flags, and enqueues one emergency status event.  It
does this unconditionally, also when idle. -/
def emergencyStop (s : WrapperState) : WrapperState :=
  {s with stopRichiesto := true,
          inEsecuzione := false,
          inAttesaApprovazione := false,
          coda := s.coda ++ [msgStopEmergenza]}

/-- approva_esecuzione: records the decision into the slot and clears the
awaiting flag, unconditionally (no pending-gate check in the source). -/
def approvaEsecuzione (b : Bool) (s : WrapperState) : WrapperState :=
  {s with approvazioneRisposta := some b, inAttesaApprovazione := false}

/-- leggi_messaggi: drains the queue, returning all queued events. -/
def leggiMessaggi (s : WrapperState) : WrapperState × List MessaggioInterpreter :=
  ({s with coda := []}, s.coda)

/-- nuova_conversazione: clears the history and empties the queue. -/
def nuovaConversazione (s : WrapperState) : WrapperState :=
  {s with cronologia := [], coda := []}

/-- imposta_auto_run. -/
def impostaAutoRun (b : Bool) (s : WrapperState) : WrapperState :=
  {s with autoRun := b}

/-- riconfigura: emergency stop if running, clear the history, then
re-initialise the runtime. -/
def riconfigura (ok : Bool) (msgErr : String) (s : WrapperState) :
    WrapperState × Bool :=
  if s.inEsecuzione then
    inizializzaInterpreter ok msgErr {emergencyStop s with cronologia := []}
  else
    inizializzaInterpreter ok msgErr {s with cronologia := []}

/-- States of the wrapper reachable through its public operations plus
the mutations the worker thread performs (enqueue an event, clear the
running flag in the finally block, open and close an approval gate,
append a history entry). -/
inductive Raggiungibile : WrapperState → Prop
  | iniziale : Raggiungibile statoIniziale
  | inizializza (ok : Bool) (m : String) (s : WrapperState) :
      Raggiungibile s → Raggiungibile (inizializzaInterpreter ok m s).1
  | invia (testo : String) (s : WrapperState) :
      Raggiungibile s → Raggiungibile (inviaMsg s testo).1
  | approva (b : Bool) (s : WrapperState) :
      Raggiungibile s → Raggiungibile (approvaEsecuzione b s)
  | stopEmergenza (s : WrapperState) :
      Raggiungibile s → Raggiungibile (emergencyStop s)
  | leggi (s : WrapperState) :
      Raggiungibile s → Raggiungibile (leggiMessaggi s).1
  | nuova (s : WrapperState) :
      Raggiungibile s → Raggiungibile (nuovaConversazione s)
  | impostaAuto (b : Bool) (s : WrapperState) :
      Raggiungibile s → Raggiungibile (impostaAutoRun b s)
  | riconfig (ok : Bool) (m : String) (s : WrapperState) :
      Raggiungibile s → Raggiungibile (riconfigura ok m s).1
  | workerEmette (m : MessaggioInterpreter) (s : WrapperState) :
      Raggiungibile s → Raggiungibile {s with coda := s.coda ++ [m]}
  | workerFinisce (s : WrapperState) :
      Raggiungibile s → Raggiungibile {s with inEsecuzione := false}
  | workerApreGate (s : WrapperState) :
      Raggiungibile s →
        Raggiungibile {s with inAttesaApprovazione := true, approvazioneRisposta := none}
  | workerChiudeGate (s : WrapperState) :
      Raggiungibile s → Raggiungibile {s with inAttesaApprovazione := false}
  | workerCronologia (v : VoceCronologia) (s : WrapperState) :
      Raggiungibile s → Raggiungibile {s with cronologia := s.cronologia ++ [v]}

/-- Configuration record of one LLM provider (dataclass ConfigProvider in
src/core/provider_manager.py).  temperatura is modelled as a rational. -/
structure ConfigProvider where
  nome : String
  api_base : String
  modello : String
  api_key : String := ""
  offline : Bool := false
  timeout : Nat := 30
  temperatura : Rat := 7/10
  contesto_max : Nat := 16000
  deriving DecidableEq, Repr

/-- Lookup in the providers dict. -/
def trovaProvider : List (String × ConfigProvider) → String → Option ConfigProvider
  | [], _ => none
  | (k, v) :: rest, chiave => if k = chiave then some v else trovaProvider rest chiave

/-- Dict assignment: replace the entry for the key, or append it. -/
def impostaProvider : List (String × ConfigProvider) → String → ConfigProvider →
    List (String × ConfigProvider)
  | [], chiave, v => [(chiave, v)]
  | (k, w) :: rest, chiave, v =>
    if k = chiave then (chiave, v) :: rest else (k, w) :: impostaProvider rest chiave v

/-- State of GestoreProvider: the providers dict and the active key. -/
structure GestoreProvider where
  providers : List (String × ConfigProvider)
  provider_attivo : String
  deriving DecidableEq, Repr

/-- GestoreProvider.__init__: empty dict, active key "locale". -/
def gestoreIniziale : GestoreProvider := ⟨[], "locale"⟩

/-- registra_locale: the local provider record always carries the dummy
api_key "not-needed"; no credential parameter exists. -/
def registraLocale (api_base modello : String) (timeout : Nat) (g : GestoreProvider) :
    GestoreProvider :=
  let c : ConfigProvider :=
    ⟨"LLM Locale (LM Studio / Ollama)", api_base, modello, "not-needed", true, timeout, 7/10, 4096⟩
  {g with providers := impostaProvider g.providers "locale" c}

/-- registra_cloud. -/
def registraCloud (api_base modello api_key : String) (timeout : Nat) (g : GestoreProvider) :
    GestoreProvider :=
  let c : ConfigProvider :=
    ⟨"DeepSeek R1 (OpenRouter)", api_base, modello, api_key, false, timeout, 7/10, 64000⟩
  {g with providers := impostaProvider g.providers "cloud" c}

/-- seleziona_provider: fails (state unchanged) when the key was never
registered. -/
def selezionaProvider (tipo : String) (g : GestoreProvider) : GestoreProvider × Bool :=
  if (trovaProvider g.providers tipo).isSome then ({g with provider_attivo := tipo}, true)
  else (g, false)

/-- ottieni_config_attiva. -/
def ottieniConfigAttiva (g : GestoreProvider) : Option ConfigProvider :=
  trovaProvider g.providers g.provider_attivo

/-- The flat dict ottieni_config_interpreter builds for the runtime; the
api_key entry is present exactly when the stored key is non-empty. -/
structure ConfigInterpreter where
  api_base : String
  model : String
  offline : Bool
  temperature : Rat
  context_window : Nat
  api_key : Option String
  deriving DecidableEq, Repr

/-- ottieni_config_interpreter: none models the empty dict returned when
no provider is active. -/
def ottieniConfigInterpreter (g : GestoreProvider) : Option ConfigInterpreter :=
  match ottieniConfigAttiva g with
  | none => none
  | some c =>
    some ⟨c.api_base, c.modello, c.offline, c.temperatura, c.contesto_max,
      if c.api_key ≠ "" then some c.api_key else none⟩

/-- aggiorna_api_key: updates the cloud key only, when cloud exists. -/
def aggiornaApiKey (api_key : String) (g : GestoreProvider) : GestoreProvider :=
  match trovaProvider g.providers "cloud" with
  | some c => {g with providers := impostaProvider g.providers "cloud" {c with api_key := api_key}}
  | none => g

/-- The missing-credential message of verifica_config_valida. -/
def msgChiaveMancante : String := "API key OpenRouter mancante! Inseriscila nelle impostazioni."

/-- verifica_config_valida: checks run in source order, so earlier
failures (no provider, empty base URL, empty model) shadow the cloud
credential check. -/
def verificaConfigValida (g : GestoreProvider) : Bool × String :=
  match ottieniConfigAttiva g with
  | none => (false, "Nessun provider configurato")
  | some c =>
    if c.api_base = "" then (false, "URL API base mancante")
    else if c.modello = "" then (false, "Modello non specificato")
    else if g.provider_attivo = "cloud" ∧ (c.api_key = "" ∨ c.api_key = "not-needed") then
      (false, msgChiaveMancante)
    else (true, "Configurazione valida")

/-- Registry states reachable through the GestoreProvider operations. -/
inductive RaggiungibileG : GestoreProvider → Prop
  | iniziale : RaggiungibileG gestoreIniziale
  | regLocale (api_base modello : String) (timeout : Nat) (g : GestoreProvider) :
      RaggiungibileG g → RaggiungibileG (registraLocale api_base modello timeout g)
  | regCloud (api_base modello api_key : String) (timeout : Nat) (g : GestoreProvider) :
      RaggiungibileG g → RaggiungibileG (registraCloud api_base modello api_key timeout g)
  | seleziona (tipo : String) (g : GestoreProvider) :
      RaggiungibileG g → RaggiungibileG (selezionaProvider tipo g).1
  | aggiornaChiave (api_key : String) (g : GestoreProvider) :
      RaggiungibileG g → RaggiungibileG (aggiornaApiKey api_key g)

/-- Outcome of one HTTP probe in ControlloSalute._verifica_server: a
response of any status code, a connection error, a timeout, or any other
exception. -/
inductive EsitoRichiesta
  | risposta (statusCode : Nat)
  | erroreConnessione
  | timeoutScaduto
  | erroreAltro
  deriving DecidableEq, Repr

/-- _verifica_server: any HTTP response counts as online; every exception
branch returns offline. -/
def verificaServer : EsitoRichiesta → Bool
  | .risposta _ => true
  | .erroreConnessione => false
  | .timeoutScaduto => false
  | .erroreAltro => false

/-- The body of ControlloSalute._loop_controllo over a list of probe
outcomes: online is the stored state _online; each entry of the result is
some b when the callback was invoked with b on that iteration, none when
it was not. -/
def loopControllo (online : Bool) : List EsitoRichiesta → List (Option Bool)
  | [] => []
  | r :: rs =>
    if verificaServer r ≠ online then
      some (verificaServer r) :: loopControllo (verificaServer r) rs
    else none :: loopControllo online rs

/-- Characterisation of the stored state _online just before iteration i:
the computed state of the most recent earlier probe, or the initial state
when no probe came before. -/
def statoArchiviato (online : Bool) (rs : List EsitoRichiesta) (i : Nat) : Bool :=
  match (rs.take i).getLast? with
  | some r => verificaServer r
  | none => online

/-- A wrapper state with a turn running: runtime initialised, one message
submitted. -/
def esempioOccupato : WrapperState :=
  (inviaMsg (inizializzaInterpreter true "" statoIniziale).1 "ciao").1

/-- A registry with the cloud provider registered with empty base URL,
empty model and empty key, then selected. -/
def gCloudVuoto : GestoreProvider :=
  (selezionaProvider "cloud" (registraCloud "" "" "" 60 gestoreIniziale)).1

/-- A registry with the local provider registered with its defaults. -/
def gLocaleEsempio : GestoreProvider :=
  registraLocale "http://localhost:1234/v1" "openai/local" 30 gestoreIniziale

/-- The interpreter config dict gLocaleEsempio resolves to. -/
def ciLocaleEsempio : ConfigInterpreter :=
  ⟨"http://localhost:1234/v1", "openai/local", true, 7/10, 4096, some "not-needed"⟩

/-- Re-initialising the runtime preserves the invariant that a running
turn implies a bound runtime handle. -/
theorem init_preserva (ok : Bool) (m : String) (t : WrapperState)
    (h : t.inEsecuzione = true → t.interpInit = true) :
    (inizializzaInterpreter ok m t).1.inEsecuzione = true →
      (inizializzaInterpreter ok m t).1.interpInit = true := by
  unfold inizializzaInterpreter
  split
  · intro _; rfl
  · exact h

/-- In every reachable wrapper state, a running turn implies the runtime
handle is bound: only invia_messaggio sets the running flag, after the
configuration check. -/
theorem esecuzione_richiede_init {s : WrapperState} (h : Raggiungibile s) :
    s.inEsecuzione = true → s.interpInit = true := by
  induction h with
  | iniziale => intro hx; simp [statoIniziale] at hx
  | inizializza ok m s _ ih => exact init_preserva ok m s ih
  | invia testo s _ ih =>
    simp only [inviaMsg]
    split
    · rename_i h1
      intro hx
      have hx2 : s.inEsecuzione = true := hx
      rw [ih hx2] at h1
      exact absurd h1 (by decide)
    · split
      · intro hx
        exact ih hx
      · rename_i h1 _
        intro _
        simpa using h1
  | approva b s _ ih => exact ih
  | stopEmergenza s _ ih => intro hx; simp [emergencyStop] at hx
  | leggi s _ ih => exact ih
  | nuova s _ ih => exact ih
  | impostaAuto b s _ ih => exact ih
  | riconfig ok m s _ ih =>
    simp only [riconfigura]
    split
    · exact init_preserva ok m _ (by intro hx; simp [emergencyStop] at hx)
    · rename_i hr
      exact init_preserva ok m _ (by intro hx; exact absurd hx hr)
  | workerEmette m s _ ih => exact ih
  | workerFinisce s _ ih => intro hx; simp at hx
  | workerApreGate s _ ih => exact ih
  | workerChiudeGate s _ ih => exact ih
  | workerCronologia v s _ ih => exact ih

/-- Claim C4: a call to invia_messaggio while a turn is running (in any
reachable state) returns a failure at once, enqueues exactly one busy
error event, spawns no second worker thread, and leaves the conversation
history (and every other state component) unchanged. -/
theorem invio_occupato_fallisce (s : WrapperState) (testo : String)
    (hr : Raggiungibile s) (hrun : s.inEsecuzione = true) :
    inviaMsg s testo = ({s with coda := s.coda ++ [msgErroreOccupato]}, false, false) := by
  have hinit := esecuzione_richiede_init hr hrun
  simp [inviaMsg, hinit, hrun]

theorem esempioOccupato_raggiungibile : Raggiungibile esempioOccupato :=
  Raggiungibile.invia "ciao" _ (Raggiungibile.inizializza true "" _ Raggiungibile.iniziale)

/-- Witness for C4 at a concrete running state. -/
theorem invio_occupato_fallisce_test :
    esempioOccupato.inEsecuzione = true ∧
      inviaMsg esempioOccupato "altro" =
        ({esempioOccupato with coda := esempioOccupato.coda ++ [msgErroreOccupato]},
          false, false) :=
  ⟨by decide, invio_occupato_fallisce esempioOccupato "altro"
    esempioOccupato_raggiungibile (by decide)⟩

/-- Claim C5, counterexample: calling emergency_stop in the idle initial
state is not a no-op — it appends a status event to the queue. -/
theorem stop_inattivo_contro :
    (emergencyStop statoIniziale).coda ≠ statoIniziale.coda := by
  decide

/-- Claim C5 (amended): with no turn active, emergency_stop leaves the
conversation history unchanged and the running flag false; its only
effects are appending one emergency status event to the queue, setting
the stop-requested flag and clearing the awaiting-approval flag. -/
theorem stop_inattivo_effetti (s : WrapperState) (h : s.inEsecuzione = false) :
    emergencyStop s =
      {s with stopRichiesto := true, inAttesaApprovazione := false,
              coda := s.coda ++ [msgStopEmergenza]} := by
  cases s
  simp_all [emergencyStop]

/-- Witness for the amended C5 at the initial state. -/
theorem stop_inattivo_effetti_test :
    emergencyStop statoIniziale =
      {statoIniziale with
        stopRichiesto := true
        inAttesaApprovazione := false
        coda := statoIniziale.coda ++ [msgStopEmergenza]} :=
  stop_inattivo_effetti statoIniziale (by decide)

/-- Claim C6: after nuova_conversazione the history is empty and draining
the queue returns the empty list — all events queued before the reset are
discarded. -/
theorem reset_svuota_tutto (s : WrapperState) :
    (nuovaConversazione s).cronologia = [] ∧
      (leggiMessaggi (nuovaConversazione s)).2 = [] := by
  simp [nuovaConversazione, leggiMessaggi]

/-- Claim C9, counterexample: calling approve with no gate pending is not
a no-op — in the initial state (awaiting-approval false, decision slot
unset) it records the decision into the slot. -/
theorem approva_idle_contro :
    approvaEsecuzione true statoIniziale ≠ statoIniziale := by
  decide

/-- Claim C9 (amended): with no gate pending, approva_esecuzione changes
nothing except the decision slot, which it unconditionally sets to the
given decision; queue, history, running flag and stop flag are untouched
(and the recorded decision is inert: the worker resets the slot to unset
before any future wait). -/
theorem approva_idle_effetti (s : WrapperState) (b : Bool)
    (h : s.inAttesaApprovazione = false) :
    approvaEsecuzione b s = {s with approvazioneRisposta := some b} := by
  cases s
  simp_all [approvaEsecuzione]

/-- Witness for the amended C9 at the initial state. -/
theorem approva_idle_effetti_test :
    approvaEsecuzione false statoIniziale =
      {statoIniziale with approvazioneRisposta := some false} :=
  approva_idle_effetti statoIniziale false (by decide)

/-- Claim C2 (code bug): when the streamed iterator raises an exception
(here: before yielding any chunk, with message "boom"), the worker
enqueues only the error event — no terminal status event with
completo = true is emitted on this exit path, although the running flag is
still cleared.  The claim (and the GUI, which re-enables input only on a
completo = true status) expects exactly one terminal status on every exit
path. -/
theorem errore_turno_senza_stato_finale :
    processaMsg false nessunoStop gateStopSubito [] (some "boom") =
        ([msgErroreTurno "boom"], false) ∧
      ((processaMsg false nessunoStop gateStopSubito [] (some "boom")).1.countP
        (fun m => m.completo)) = 0 := by
  constructor
  · rfl
  · decide

theorem trova_imposta_eq (l : List (String × ConfigProvider)) (k : String)
    (v : ConfigProvider) : trovaProvider (impostaProvider l k v) k = some v := by
  induction l with
  | nil => simp [impostaProvider, trovaProvider]
  | cons p rest ih =>
    obtain ⟨k2, w⟩ := p
    by_cases h : k2 = k
    · simp [impostaProvider, h, trovaProvider]
    · simp only [impostaProvider, h, if_false]
      simp [trovaProvider, h, ih]

theorem trova_imposta_ne (l : List (String × ConfigProvider)) (k k2 : String)
    (v : ConfigProvider) (h : k2 ≠ k) :
    trovaProvider (impostaProvider l k v) k2 = trovaProvider l k2 := by
  induction l with
  | nil => simp [impostaProvider, trovaProvider, Ne.symm h]
  | cons p rest ih =>
    obtain ⟨k3, w⟩ := p
    by_cases h3 : k3 = k
    · subst h3
      simp [impostaProvider, trovaProvider, Ne.symm h]
    · simp only [impostaProvider, h3, if_false]
      by_cases h4 : k3 = k2
      · simp [trovaProvider, h4]
      · simp [trovaProvider, h4, ih]

/-- In every reachable registry state the record stored under "locale"
carries the placeholder credential: registra_locale hard-codes it and no
other operation touches that slot. -/
theorem locale_chiave_fissa {g : GestoreProvider} (h : RaggiungibileG g) :
    ∀ c, trovaProvider g.providers "locale" = some c → c.api_key = "not-needed" := by
  induction h with
  | iniziale => intro c hc; simp [gestoreIniziale, trovaProvider] at hc
  | regLocale ab mo t g _ ih =>
    intro c hc
    simp only [registraLocale] at hc
    rw [trova_imposta_eq] at hc
    cases hc
    rfl
  | regCloud ab mo key t g _ ih =>
    intro c hc
    simp only [registraCloud] at hc
    rw [trova_imposta_ne _ _ _ _ (by decide)] at hc
    exact ih c hc
  | seleziona tipo g _ ih =>
    intro c hc
    have hp : (selezionaProvider tipo g).1.providers = g.providers := by
      unfold selezionaProvider
      split <;> rfl
    rw [hp] at hc
    exact ih c hc
  | aggiornaChiave key g _ ih =>
    intro c hc
    unfold aggiornaApiKey at hc
    cases hcl : trovaProvider g.providers "cloud" with
    | none => rw [hcl] at hc; exact ih c hc
    | some c2 =>
      rw [hcl] at hc
      simp only at hc
      rw [trova_imposta_ne _ _ _ _ (by decide)] at hc
      exact ih c hc

/-- Claim C7, counterexample: with the cloud provider registered with an
empty base URL and an empty key and then selected, the key is empty yet
verifica_config_valida does not report the missing-credential failure
(the base-URL check shadows it), refuting the claimed "exactly when". -/
theorem verifica_chiave_contro :
    (ottieniConfigAttiva gCloudVuoto).map ConfigProvider.api_key = some "" ∧
      gCloudVuoto.provider_attivo = "cloud" ∧
      verificaConfigValida gCloudVuoto ≠ (false, msgChiaveMancante) := by
  refine ⟨by rfl, by rfl, by decide⟩

/-- Claim C7 (amended): in every reachable registry state, (1) with the
local provider active, whenever resolveRuntimeConfig produces a dict it
contains the non-empty placeholder api_key "not-needed", even though
registration takes no credential; (2) with the cloud provider active,
validateActive reports the missing-credential failure exactly when the
key is empty or equals "not-needed" AND the base URL and model are both
non-empty (the earlier checks take precedence). -/
theorem config_chiavi_provider (g : GestoreProvider) (hg : RaggiungibileG g) :
    (g.provider_attivo = "locale" →
      ∀ ci, ottieniConfigInterpreter g = some ci → ci.api_key = some "not-needed") ∧
    (g.provider_attivo = "cloud" →
      ∀ c, ottieniConfigAttiva g = some c →
        (verificaConfigValida g = (false, msgChiaveMancante) ↔
          c.api_base ≠ "" ∧ c.modello ≠ "" ∧
            (c.api_key = "" ∨ c.api_key = "not-needed"))) := by
  constructor
  · intro hl ci hci
    unfold ottieniConfigInterpreter at hci
    cases hca : ottieniConfigAttiva g with
    | none => rw [hca] at hci; cases hci
    | some c =>
      rw [hca] at hci
      have hk : c.api_key = "not-needed" := by
        apply locale_chiave_fissa hg
        rw [← hl]
        exact hca
      simp only [hk] at hci
      simp only [Option.some.injEq] at hci
      rw [← hci]
      rfl
  · intro hc c hca
    unfold verificaConfigValida
    rw [hca]
    by_cases hb : c.api_base = ""
    · simp [hb, msgChiaveMancante]
    · by_cases hm : c.modello = ""
      · simp [hb, hm, msgChiaveMancante]
      · by_cases hkey : c.api_key = "" ∨ c.api_key = "not-needed"
        · simp [hb, hm, hc, hkey]
        · simp [hb, hm, hc, hkey]

theorem gLocaleEsempio_raggiungibile : RaggiungibileG gLocaleEsempio :=
  RaggiungibileG.regLocale _ _ _ _ RaggiungibileG.iniziale

/-- Witness for C7 at the freshly registered local provider. -/
theorem config_chiavi_provider_test : ciLocaleEsempio.api_key = some "not-needed" :=
  (config_chiavi_provider gLocaleEsempio gLocaleEsempio_raggiungibile).1 rfl
    ciLocaleEsempio (by rfl)

theorem statoArchiviato_zero (online : Bool) (rs : List EsitoRichiesta) :
    statoArchiviato online rs 0 = online := by
  simp [statoArchiviato]

theorem statoArchiviato_succ (online : Bool) (r : EsitoRichiesta)
    (rs : List EsitoRichiesta) (n : Nat) :
    statoArchiviato online (r :: rs) (n + 1) = statoArchiviato (verificaServer r) rs n := by
  unfold statoArchiviato
  simp only [List.take_succ_cons]
  cases htn : rs.take n with
  | nil => simp [htn]
  | cons y ys =>
    simp only [htn, List.getLast?_cons_cons]
    cases hgl : (y :: ys).getLast? with
    | none => simp at hgl
    | some z => simp [hgl]

/-- The stored state seen at iteration i is the computed state of the
last earlier probe (or the initial state), and the callback entry of
iteration i is filled exactly when the freshly computed state differs
from it. -/
theorem loopControllo_getD (online : Bool) (rs : List EsitoRichiesta) (i : Nat)
    (h : i < rs.length) :
    (loopControllo online rs).getD i none =
      if verificaServer (rs.getD i EsitoRichiesta.erroreConnessione) ≠
          statoArchiviato online rs i
      then some (verificaServer (rs.getD i EsitoRichiesta.erroreConnessione))
      else none := by
  induction rs generalizing online i with
  | nil => exact absurd h (by simp)
  | cons r rs ih =>
    cases i with
    | zero =>
      rw [statoArchiviato_zero]
      simp only [loopControllo, List.getD_cons_zero]
      by_cases hv : verificaServer r ≠ online
      · simp [hv]
      · simp [hv]
    | succ n =>
      have h2 : n < rs.length := by simpa using h
      simp only [loopControllo]
      rw [statoArchiviato_succ]
      by_cases hv : verificaServer r ≠ online
      · rw [if_pos hv, List.getD_cons_succ, List.getD_cons_succ]
        exact ih (verificaServer r) n h2
      · rw [if_neg hv, List.getD_cons_succ, List.getD_cons_succ]
        push_neg at hv
        rw [← hv]
        exact ih (verificaServer r) n h2

/-- Claim C8: a probe computes online exactly when the HTTP request
returned a response of any status (every exception branch gives offline),
and on each poll iteration the callback is invoked if and only if the
computed state differs from the previously stored state. -/
theorem monitor_transizioni (online : Bool) (rs : List EsitoRichiesta) (i : Nat)
    (h : i < rs.length) :
    (∀ r, verificaServer r = true ↔ ∃ sc, r = EsitoRichiesta.risposta sc) ∧
    (loopControllo online rs).getD i none =
      (if verificaServer (rs.getD i EsitoRichiesta.erroreConnessione) ≠
          statoArchiviato online rs i
       then some (verificaServer (rs.getD i EsitoRichiesta.erroreConnessione))
       else none) := by
  constructor
  · intro r
    cases r <;> simp [verificaServer]
  · exact loopControllo_getD online rs i h

/-- Witness for C8: three probes starting offline; the second poll sees
online = stored online, so no callback fires. -/
theorem monitor_transizioni_test :
    (loopControllo false [EsitoRichiesta.risposta 200, EsitoRichiesta.risposta 500,
      EsitoRichiesta.erroreConnessione]).getD 1 none = none :=
  ((monitor_transizioni false [EsitoRichiesta.risposta 200, EsitoRichiesta.risposta 500,
      EsitoRichiesta.erroreConnessione] 1 (by decide)).2).trans (by decide)

theorem loopRun_append_rotto (a : Bool) (s : Nat → Bool) (g : Nat → GateOutcome)
    (pre suf : List Chunk) : ∀ (st : StatoLoop) (i j : Nat),
    (loopRun a s g st i j pre).finito = false →
    loopRun a s g st i j (pre ++ suf) = loopRun a s g st i j pre := by
  induction pre with
  | nil => intro st i j h; simp [loopRun] at h
  | cons c pre ih =>
    intro st i j h
    simp only [loopRun] at h
    simp only [List.cons_append, loopRun]
    by_cases hs : s i = true
    · rw [if_pos hs, if_pos hs]
    · rw [if_neg hs] at h
      rw [if_neg hs, if_neg hs]
      cases hp : passo a (g j) st c with
      | halt evs st2 dj => simp only [hp]
      | cont evs ex st2 dj =>
        simp only [hp, mergeRun] at h
        simp only [hp, mergeRun, List.append_eq]
        rw [ih st2 (i + 1) (j + dj) h]

theorem loopRun_append_finito (a : Bool) (s : Nat → Bool) (g : Nat → GateOutcome)
    (pre suf : List Chunk) : ∀ (st : StatoLoop) (i j : Nat),
    (loopRun a s g st i j pre).finito = true →
    loopRun a s g st i j (pre ++ suf) =
      mergeRun (loopRun a s g st i j pre)
        (loopRun a s g (loopRun a s g st i j pre).stato
          (loopRun a s g st i j pre).iFin (loopRun a s g st i j pre).jFin suf) := by
  induction pre with
  | nil =>
    intro st i j _
    simp [loopRun, mergeRun]
  | cons c pre ih =>
    intro st i j h
    simp only [loopRun] at h
    simp only [List.cons_append, loopRun]
    by_cases hs : s i = true
    · rw [if_pos hs] at h
      simp at h
    · rw [if_neg hs] at h
      rw [if_neg hs, if_neg hs]
      cases hp : passo a (g j) st c with
      | halt evs st2 dj =>
        simp only [hp] at h
        simp at h
      | cont evs ex st2 dj =>
        simp only [hp, mergeRun] at h
        simp only [hp, mergeRun, List.append_eq]
        rw [ih st2 (i + 1) (j + dj) h]
        simp [mergeRun, List.append_assoc]

theorem passo_frammento (a : Bool) (go : GateOutcome) (st : StatoLoop) (c : Chunk)
    (h : isFrammento c = true) :
    passo a go st c = .cont [] [] (applicaFrammento st c) 0 := by
  obtain ⟨f1, f2, f3, f4, m, lg, cd, o, ex⟩ := c
  simp only [isFrammento, Bool.and_eq_true, Bool.not_eq_true',
    Option.isNone_iff_eq_none] at h
  obtain ⟨⟨⟨⟨⟨⟨h1, h2⟩, h3⟩, h4⟩, h5⟩, h6⟩, h7⟩ := h
  subst h1 h2 h3 h4 h5 h6 h7
  simp [passo, passoTesto, passoOutput]

theorem passo_esecuzione_rifiutata (go : GateOutcome) (st : StatoLoop)
    (info : InfoEsecuzione) (hcode : info.code ≠ "")
    (hg : ¬(go.risposta = some true ∧ go.stopDopo = false)) :
    passo false go st (chunkEsecuzione info) =
      .halt [msgCodice info.code info.language, msgApprovazione info.code info.language,
        msgRifiutata] st 1 := by
  simp [passo, chunkEsecuzione, passoTesto, passoOutput, applicaFrammento,
    applicaFrammento.passoLingua, hcode, hg]

/-- With auto-run off, every intent a single step lets through with
non-empty code carries the approval outcome of the consumed gate, and
that outcome is a recorded approval with no stop request. -/
theorem passo_cont_gate (go : GateOutcome) (st : StatoLoop) (c : Chunk)
    (evs : List MessaggioInterpreter) (ex : List Eseguito) (st2 : StatoLoop) (dj : Nat)
    (hp : passo false go st c = .cont evs ex st2 dj) :
    ∀ e ∈ ex, e.codice ≠ "" →
      e.gate = some go ∧ go.risposta = some true ∧ go.stopDopo = false := by
  unfold passo at hp
  split at hp
  · cases hp; intro e he; simp at he
  · split at hp
    · cases hp; intro e he; simp at he
    · split at hp
      · cases hp; intro e he; simp at he
      · split at hp
        · cases hp; intro e he; simp at he
        · split at hp
          · cases hp; intro e he; simp at he
          · rename_i info
            split at hp
            · rename_i hempty
              cases hp
              intro e he hne
              simp at he
              subst he
              exact absurd hempty hne
            · split at hp
              · rename_i hf
                exact absurd hf (by decide)
              · split at hp
                · rename_i hgate
                  cases hp
                  intro e he hne
                  simp at he
                  subst he
                  exact ⟨rfl, hgate⟩
                · cases hp

/-- With auto-run off, every intent the whole loop lets through with
non-empty code was approved while its gate was pending. -/
theorem loopRun_eseguiti_approvati (s : Nat → Bool) (g : Nat → GateOutcome)
    (chunks : List Chunk) : ∀ (st : StatoLoop) (i j : Nat),
    ∀ e ∈ (loopRun false s g st i j chunks).eseguiti, e.codice ≠ "" →
      ∃ go, e.gate = some go ∧ go.risposta = some true ∧ go.stopDopo = false := by
  induction chunks with
  | nil => intro st i j e he; simp [loopRun] at he
  | cons c rest ih =>
    intro st i j e he hne
    simp only [loopRun] at he
    by_cases hs : s i = true
    · rw [if_pos hs] at he
      simp at he
    · rw [if_neg hs] at he
      cases hp : passo false (g j) st c with
      | halt evs st2 dj =>
        simp only [hp] at he
        simp at he
      | cont evs ex st2 dj =>
        simp only [hp, mergeRun, List.mem_append] at he
        rcases he with he | he
        · exact ⟨g j, passo_cont_gate (g j) st c evs ex st2 dj hp e he hne⟩
        · exact ih st2 (i + 1) (j + dj) e he hne

/-- Claim C1: with auto-run disabled, (a) every execution intent with
non-empty code that the worker lets through to execution was approved —
its gate outcome records decision true with no stop request read after
the wait; and (b) whenever the gate outcome consumed at an execution
intent is anything else (refusal, or slot unset with stop requested, or
approval with stop requested), the worker breaks out of the streaming
iterator at that chunk: the run of the full stream equals the run that
ends at that intent, so the code is never reached and no ConsoleOutput
event for it (nor any later event) is emitted. -/
theorem approvazione_obbligatoria (s : Nat → Bool) (g : Nat → GateOutcome)
    (st : StatoLoop) (i j : Nat) :
    (∀ chunks, ∀ e ∈ (loopRun false s g st i j chunks).eseguiti, e.codice ≠ "" →
        ∃ go, e.gate = some go ∧ go.risposta = some true ∧ go.stopDopo = false) ∧
    (∀ (pre : List Chunk) (info : InfoEsecuzione) (post : List Chunk),
        (loopRun false s g st i j pre).finito = true →
        info.code ≠ "" →
        ¬((g (loopRun false s g st i j pre).jFin).risposta = some true ∧
            (g (loopRun false s g st i j pre).jFin).stopDopo = false) →
        loopRun false s g st i j (pre ++ chunkEsecuzione info :: post) =
          loopRun false s g st i j (pre ++ [chunkEsecuzione info])) := by
  constructor
  · intro chunks
    exact loopRun_eseguiti_approvati s g chunks st i j
  · intro pre info post hfin hcode hgate
    rw [loopRun_append_finito false s g pre (chunkEsecuzione info :: post) st i j hfin,
        loopRun_append_finito false s g pre [chunkEsecuzione info] st i j hfin]
    have key : ∀ (st2 : StatoLoop) (i2 j2 : Nat),
        ¬((g j2).risposta = some true ∧ (g j2).stopDopo = false) →
        loopRun false s g st2 i2 j2 (chunkEsecuzione info :: post) =
          loopRun false s g st2 i2 j2 [chunkEsecuzione info] := by
      intro st2 i2 j2 hg2
      simp only [loopRun]
      by_cases hs2 : s i2 = true
      · rw [if_pos hs2, if_pos hs2]
      · rw [if_neg hs2, if_neg hs2,
          passo_esecuzione_rifiutata (g j2) st2 info hcode hg2]
    rw [key _ _ _ hgate]

/-- Witness for C1: a rejected gate at a concrete intent makes the run
ignore the following output chunk. -/
theorem approvazione_obbligatoria_test :
    loopRun false nessunoStop gateRifiutaSempre statoLoopIniziale 0 0
        ([] ++ chunkEsecuzione ⟨"print(1)", "python"⟩ :: [chunkOutput "x"]) =
      loopRun false nessunoStop gateRifiutaSempre statoLoopIniziale 0 0
        ([] ++ [chunkEsecuzione ⟨"print(1)", "python"⟩]) :=
  (approvazione_obbligatoria nessunoStop gateRifiutaSempre statoLoopIniziale 0 0).2
    [] ⟨"print(1)", "python"⟩ [chunkOutput "x"] (by decide) (by decide) (by decide)

theorem passo_start_codice (a : Bool) (go : GateOutcome) (st : StatoLoop) :
    passo a go st chunkStartCodice =
      .cont [] [] {st with inBloccoCodice := true, codiceAcc := ""} 0 := rfl

theorem passo_fine_codice (a : Bool) (go : GateOutcome) (st : StatoLoop) :
    passo a go st chunkFineCodice =
      .cont (if stripBianco st.codiceAcc ≠ "" then [msgCodice st.codiceAcc st.lingCorrente] else [])
        [] {st with inBloccoCodice := false, codiceAcc := ""} 0 := rfl

theorem applicaFrammento_eq (st : StatoLoop) (c : Chunk) :
    applicaFrammento st c =
      {st with codiceAcc := st.codiceAcc ++ (c.code.getD ""),
               lingCorrente := c.language.getD st.lingCorrente} := by
  unfold applicaFrammento applicaFrammento.passoLingua
  cases hc : c.code with
  | none =>
    cases hl : c.language with
    | none => simp
    | some l => simp
  | some cd =>
    by_cases hcd : cd = ""
    · subst hcd
      cases hl : c.language with
      | none => simp
      | some l => simp
    · cases hl : c.language with
      | none => simp [hcd]
      | some l => simp [hcd]

theorem foldl_applica (frags : List Chunk) : ∀ st : StatoLoop,
    frags.foldl applicaFrammento st =
      {st with codiceAcc := st.codiceAcc ++ concatCodici frags,
               lingCorrente := ultimaLingua frags st.lingCorrente} := by
  induction frags with
  | nil => intro st; simp [concatCodici, ultimaLingua]
  | cons c cs ih =>
    intro st
    rw [List.foldl_cons, ih, applicaFrammento_eq]
    simp [concatCodici, ultimaLingua, String.append_assoc]

/-- A run over interior code-block fragments with the stop flag never
set: no event, no passed intent, no gate consumed; only the language and
code accumulator move. -/
theorem loopRun_frammenti (a : Bool) (s : Nat → Bool) (g : Nat → GateOutcome)
    (hs : ∀ k, s k = false) :
    ∀ (frags : List Chunk), (∀ c ∈ frags, isFrammento c = true) →
    ∀ (st : StatoLoop) (i j : Nat),
    loopRun a s g st i j frags =
      ⟨[], [], frags.foldl applicaFrammento st, i + frags.length, j, true⟩ := by
  intro frags
  induction frags with
  | nil => intro _ st i j; simp [loopRun]
  | cons c cs ih =>
    intro hf st i j
    simp only [loopRun]
    rw [if_neg (by simp [hs i])]
    rw [passo_frammento a (g j) st c (hf c (List.mem_cons_self c cs))]
    simp only [mergeRun]
    rw [ih (fun d hd => hf d (List.mem_cons_of_mem c hd)) (applicaFrammento st c) (i + 1) (j + 0)]
    simp [mergeRun, RunResult.mk.injEq, List.foldl_cons]
    omega

/-- Processing one whole code block: one CODICE event carrying the full
concatenation at the closing boundary when the trimmed concatenation is
non-empty, no event otherwise, and no event at all before the boundary. -/
theorem loopRun_blocco (a : Bool) (s : Nat → Bool) (g : Nat → GateOutcome)
    (st : StatoLoop) (i j : Nat) (frags : List Chunk)
    (hf : ∀ c ∈ frags, isFrammento c = true) (hs : ∀ k, s k = false) :
    ((loopRun a s g st i j (chunkStartCodice :: frags ++ [chunkFineCodice])).eventi =
      if stripBianco (concatCodici frags) ≠ "" then
        [msgCodice (concatCodici frags) (ultimaLingua frags st.lingCorrente)]
      else []) ∧
    (loopRun a s g st i j (chunkStartCodice :: frags)).eventi = [] := by
  constructor
  · simp only [loopRun]
    rw [if_neg (by simp [hs i]), passo_start_codice]
    simp only [mergeRun]
    simp only [List.append_eq]
    have hfr := loopRun_frammenti a s g hs frags hf
      {st with inBloccoCodice := true, codiceAcc := ""} (i + 1) (j + 0)
    rw [loopRun_append_finito a s g frags [chunkFineCodice] _ (i + 1) (j + 0)
      (by rw [hfr])]
    rw [hfr]
    simp only [mergeRun]
    simp only [loopRun]
    rw [if_neg (by simp [hs]), passo_fine_codice]
    rw [foldl_applica]
    simp [mergeRun]
  · simp only [loopRun]
    rw [if_neg (by simp [hs i]), passo_start_codice]
    simp only [mergeRun]
    rw [loopRun_frammenti a s g hs frags hf _ (i + 1) (j + 0)]
    simp

/-- Claim C3, counterexample: for the code block consisting of the two
boundary chunks only (zero fragments), the worker emits zero Code events,
not the claimed exactly one. -/
theorem blocco_vuoto_contro :
    ((loopRun false nessunoStop gateApprovaSempre statoLoopIniziale 0 0
        [chunkStartCodice, chunkFineCodice]).eventi.countP
      (fun m => decide (m.tipo = TipoMsg.CODICE))) = 0 := by
  decide

/-- Claim C3 (amended): for a full code block, when the accumulated
concatenation has non-whitespace content the worker emits exactly one
Code event carrying the concatenation of all code fragments in stream
order (with the last language seen), and it emits nothing before the
end_of_code boundary is observed; when the concatenation trims to empty,
zero Code events are emitted. -/
theorem blocco_codice_evento_unico (a : Bool) (s : Nat → Bool) (g : Nat → GateOutcome)
    (st : StatoLoop) (i j : Nat) (frags : List Chunk)
    (hf : ∀ c ∈ frags, isFrammento c = true) (hs : ∀ k, s k = false) :
    ((loopRun a s g st i j (chunkStartCodice :: frags ++ [chunkFineCodice])).eventi =
      if stripBianco (concatCodici frags) ≠ "" then
        [msgCodice (concatCodici frags) (ultimaLingua frags st.lingCorrente)]
      else []) ∧
    (loopRun a s g st i j (chunkStartCodice :: frags)).eventi = [] :=
  loopRun_blocco a s g st i j frags hf hs

/-- Witness for C3: a concrete two-fragment block yields the single
concatenated Code event. -/
theorem blocco_codice_evento_unico_test :
    (loopRun false nessunoStop gateApprovaSempre statoLoopIniziale 0 0
        (chunkStartCodice :: [chunkLingua "python", chunkCodice "print(1)"] ++
          [chunkFineCodice])).eventi = [msgCodice "print(1)" "python"] := by
  have h := (blocco_codice_evento_unico false nessunoStop gateApprovaSempre
    statoLoopIniziale 0 0 [chunkLingua "python", chunkCodice "print(1)"]
    (by decide) (fun k => rfl)).1
  exact h.trans (by decide)

/-- Claim C10: a code block whose accumulated fragment text is empty or
whitespace-only produces no event at all when the end_of_code boundary is
observed — the block is silently dropped. -/
theorem blocco_bianco_scartato (a : Bool) (s : Nat → Bool) (g : Nat → GateOutcome)
    (st : StatoLoop) (i j : Nat) (frags : List Chunk)
    (hf : ∀ c ∈ frags, isFrammento c = true) (hs : ∀ k, s k = false)
    (hb : stripBianco (concatCodici frags) = "") :
    (loopRun a s g st i j (chunkStartCodice :: frags ++ [chunkFineCodice])).eventi = [] := by
  rw [(loopRun_blocco a s g st i j frags hf hs).1, if_neg (by simp [hb])]

/-- Witness for C10: a whitespace-only fragment (including the vertical
tab and form feed, which Python str.strip() removes) yields no event. -/
theorem blocco_bianco_scartato_test :
    (loopRun false nessunoStop gateStopSubito statoLoopIniziale 0 0
        (chunkStartCodice :: [chunkCodice " \x0b\x0c\n"] ++ [chunkFineCodice])).eventi = [] :=
  blocco_bianco_scartato false nessunoStop gateStopSubito statoLoopIniziale 0 0
    [chunkCodice " \x0b\x0c\n"] (by decide) (fun k => rfl) (by decide)

end AutoBotOx
